import Mathlib

/-!
Verification of the version-control engine (`src/core`).

Shallow embedding of the core modules of the repository —
`commit.py`, `repository.py`, `staging.py`, `branch.py`, `merge.py`,
`diff.py`, `history.py`, `ignore.py` — together with theorems settling
the frozen specification claims.

File contents are modelled as byte lists (`List Nat`, each < 256) or as
strings; paths as segment lists; on-disk JSON documents as Lean
structures holding the same fields; every persisted store as an
association list threaded through each operation.
-/

set_option autoImplicit false
set_option maxRecDepth 8192

/-! ## SHA-256 (`hashlib.sha256`)

`commit.py` derives the commit hash and every file hash from
`hashlib.sha256(...).hexdigest()`.  The algorithm is implemented here
executably over `Nat`, words reduced mod `2^32`. -/

/-- Reduce to a 32-bit word. -/
def w32 (x : Nat) : Nat := x % 4294967296

/-- Right rotation of a 32-bit word by `n` bits. -/
def rotr32 (n x : Nat) : Nat := w32 ((x >>> n) ||| (x <<< (32 - n)))

/-- Bitwise complement within 32 bits. -/
def not32 (x : Nat) : Nat := 4294967295 - w32 x

def sha256Ch (x y z : Nat) : Nat := (x &&& y) ^^^ (not32 x &&& z)

def sha256Maj (x y z : Nat) : Nat := (x &&& y) ^^^ (x &&& z) ^^^ (y &&& z)

def sha256S0 (x : Nat) : Nat := rotr32 2 x ^^^ rotr32 13 x ^^^ rotr32 22 x

def sha256S1 (x : Nat) : Nat := rotr32 6 x ^^^ rotr32 11 x ^^^ rotr32 25 x

def sha256s0 (x : Nat) : Nat := rotr32 7 x ^^^ rotr32 18 x ^^^ (x >>> 3)

def sha256s1 (x : Nat) : Nat := rotr32 17 x ^^^ rotr32 19 x ^^^ (x >>> 10)

/-- The 64 SHA-256 round constants (FIPS 180-4, written in decimal). -/
def sha256K : List Nat :=
  [1116352408, 1899447441, 3049323471, 3921009573, 961987163,
   1508970993, 2453635748, 2870763221, 3624381080, 310598401,
   607225278, 1426881987, 1925078388, 2162078206, 2614888103,
   3248222580, 3835390401, 4022224774, 264347078, 604807628,
   770255983, 1249150122, 1555081692, 1996064986, 2554220882,
   2821834349, 2952996808, 3210313671, 3336571891, 3584528711,
   113926993, 338241895, 666307205, 773529912, 1294757372,
   1396182291, 1695183700, 1986661051, 2177026350, 2456956037,
   2730485921, 2820302411, 3259730800, 3345764771, 3516065817,
   3600352804, 4094571909, 275423344, 430227734, 506948616,
   659060556, 883997877, 958139571, 1322822218, 1537002063,
   1747873779, 1955562222, 2024104815, 2227730452, 2361852424,
   2428436474, 2756734187, 3204031479, 3329325298]

/-- Working state: eight 32-bit words. -/
structure Hash8 where
  a : Nat
  b : Nat
  c : Nat
  d : Nat
  e : Nat
  f : Nat
  g : Nat
  h : Nat
deriving Repr, DecidableEq

/-- Initial SHA-256 hash value (FIPS 180-4, written in decimal). -/
def sha256H0 : Hash8 :=
  ⟨1779033703, 3144134277, 1013904242, 2773480762,
   1359893119, 2600822924, 528734635, 1541459225⟩

/-- Next word of the message schedule, given the already-produced words
in reverse order (most recent first). -/
def sha256NextW (rev : List Nat) : Nat :=
  w32 (sha256s1 (rev.getD 1 0) + rev.getD 6 0 + sha256s0 (rev.getD 14 0) + rev.getD 15 0)

/-- Extend the schedule by `n` further words (accumulator reversed). -/
def sha256Extend : Nat → List Nat → List Nat
  | 0, rev => rev.reverse
  | n + 1, rev => sha256Extend n (sha256NextW rev :: rev)

/-- One round of the compression function. -/
def sha256Round (st : Hash8) (wk : Nat × Nat) : Hash8 :=
  let t1 := w32 (st.h + sha256S1 st.e + sha256Ch st.e st.f st.g + wk.2 + wk.1)
  let t2 := w32 (sha256S0 st.a + sha256Maj st.a st.b st.c)
  ⟨w32 (t1 + t2), st.a, st.b, st.c, w32 (st.d + t1), st.e, st.f, st.g⟩

/-- Process one 512-bit block (16 words) on top of intermediate hash `st`. -/
def sha256Block (st : Hash8) (ws : List Nat) : Hash8 :=
  let sched := sha256Extend 48 ws.reverse
  let r := (sched.zip sha256K).foldl sha256Round st
  ⟨w32 (st.a + r.a), w32 (st.b + r.b), w32 (st.c + r.c), w32 (st.d + r.d),
   w32 (st.e + r.e), w32 (st.f + r.f), w32 (st.g + r.g), w32 (st.h + r.h)⟩

/-- Big-endian 8-byte encoding of a length in bits. -/
def be64 (n : Nat) : List Nat :=
  [(n >>> 56) % 256, (n >>> 48) % 256, (n >>> 40) % 256, (n >>> 32) % 256,
   (n >>> 24) % 256, (n >>> 16) % 256, (n >>> 8) % 256, n % 256]

/-- SHA-256 padding: append `0x80`, zeros to 56 mod 64, then the bit length. -/
def sha256Pad (m : List Nat) : List Nat :=
  let l := m.length
  let z := (120 - ((l + 1) % 64)) % 64
  m ++ 0x80 :: List.replicate z 0 ++ be64 (8 * l)

/-- Group bytes into big-endian 32-bit words. -/
def bytesToWords : List Nat → List Nat
  | b1 :: b2 :: b3 :: b4 :: rest =>
      (((b1 * 256 + b2) * 256 + b3) * 256 + b4) :: bytesToWords rest
  | _ => []

/-- Split a word list into 16-word blocks (the padded input is always a
multiple of 16 words). -/
def wordsToBlocks : List Nat → List (List Nat)
  | w0 :: w1 :: w2 :: w3 :: w4 :: w5 :: w6 :: w7 ::
    w8 :: w9 :: w10 :: w11 :: w12 :: w13 :: w14 :: w15 :: rest =>
      [w0, w1, w2, w3, w4, w5, w6, w7, w8, w9, w10, w11, w12, w13, w14, w15] ::
        wordsToBlocks rest
  | _ => []

/-- SHA-256 digest of a byte list, as eight 32-bit words. -/
def sha256Words (m : List Nat) : Hash8 :=
  (wordsToBlocks (bytesToWords (sha256Pad m))).foldl sha256Block sha256H0

def hexDigit (n : Nat) : Char :=
  if n < 10 then Char.ofNat (48 + n) else Char.ofNat (87 + n)

/-- Eight-hex-digit rendering of a 32-bit word. -/
def wordToHex (n : Nat) : List Char :=
  (List.range 8).map (fun i => hexDigit ((n >>> (28 - 4 * i)) % 16))

/-- `hashlib.sha256(m).hexdigest()`. -/
def sha256Hex (m : List Nat) : String :=
  let d := sha256Words m
  String.mk (wordToHex d.a ++ wordToHex d.b ++ wordToHex d.c ++ wordToHex d.d ++
             wordToHex d.e ++ wordToHex d.f ++ wordToHex d.g ++ wordToHex d.h)

/-- UTF-8 encoding of one code point. -/
def utf8Char (c : Nat) : List Nat :=
  if c < 0x80 then [c]
  else if c < 0x800 then [0xC0 + c / 64, 0x80 + c % 64]
  else if c < 0x10000 then
    [0xE0 + c / 4096, 0x80 + (c / 64) % 64, 0x80 + c % 64]
  else
    [0xF0 + c / 262144, 0x80 + (c / 4096) % 64, 0x80 + (c / 64) % 64, 0x80 + c % 64]

/-- `str.encode()`: UTF-8 bytes of a string. -/
def strBytes (s : String) : List Nat :=
  s.data.flatMap (fun c => utf8Char c.toNat)

/-- Sanity anchor: the standard test vector SHA-256("abc"). -/
example :
    sha256Hex (strBytes "abc") =
      "ba7816bf8f01cfea414140de5dae2223b00361a396177a9cb410ff61f20015ad" := by
  decide

/-! ## Commit store (`src/core/commit.py`, class `Commit`)

State: the staging directory (`<repo>/.source-control/staging`, one
entry per staged file, walk order = list order) and the commits
directory (`commits/<hash>/` holding copied files plus `metadata.json`).
File contents are byte lists.

`create_commit` performs a sequence of filesystem writes; a Python
exception in any of them leaves every earlier write in place.  The
embedding numbers the write operations in execution order
(0 = `os.makedirs(commit_dir)`, 1..n = `shutil.copy2` of each staged
file, n+1 = the `metadata.json` write, n+2.. = the unlinks of
`_clear_staging_area`) and takes an optional fault position `failAt`:
the run raises at that operation, returning the state mutated so far.
`failAt = none` is the fault-free run. -/

structure CommitMetaFile where
  path : String
  hash : String
deriving Repr, DecidableEq

structure CommitMeta where
  hash : String
  message : String
  author : String
  timestamp : String
  files : List CommitMetaFile
deriving Repr, DecidableEq

structure CommitDir where
  files : List (String × List Nat)
  metadata : Option CommitMeta
deriving Repr, DecidableEq

structure CommitFS where
  staging : List (String × List Nat)
  commits : List (String × CommitDir)
deriving Repr, DecidableEq

/-- `Commit._calculate_file_hash`: SHA-256 hex digest of the file bytes. -/
def calculate_file_hash (content : List Nat) : String := sha256Hex content

/-- `commit.py` lines 94-97: the commit hash is the first eight hex
digits of SHA-256 over `f"{message}{author}{datetime.now().isoformat()}"`. -/
def commit_hash (message author now : String) : String :=
  (sha256Hex (strBytes (message ++ author ++ now))).take 8

/-- The copy loop of `create_commit` (lines 104-121): copy each staged
file into the commit directory and record `(path, hash)` metadata.  On
a fault, returns the files copied before the fault. -/
def commit_copy_files (failAt : Option Nat) :
    List (String × List Nat) → Nat →
    Except (List (String × List Nat)) (List (String × List Nat) × List CommitMetaFile)
  | [], _ => .ok ([], [])
  | (p, content) :: rest, op =>
      if failAt = some op then .error []
      else
        match commit_copy_files failAt rest (op + 1) with
        | .ok (dirFiles, metas) =>
            .ok ((p, content) :: dirFiles, ⟨p, calculate_file_hash content⟩ :: metas)
        | .error dirFiles => .error ((p, content) :: dirFiles)

/-- `Commit._clear_staging_area`: unlink every staged file.  On a fault,
returns the staging contents still present (the current file and all
later ones). -/
def clear_staging_area (failAt : Option Nat) :
    List (String × List Nat) → Nat → Except (List (String × List Nat)) Unit
  | [], _ => .ok ()
  | (p, c) :: rest, op =>
      if failAt = some op then .error ((p, c) :: rest)
      else clear_staging_area failAt rest (op + 1)

/-- `Commit.create_commit(message, author)` with the two `datetime.now()`
readings passed explicitly (`nowHash` feeds the commit hash on line 96,
`nowMeta` the metadata timestamp on line 128). -/
def create_commit (failAt : Option Nat) (fs : CommitFS)
    (message author nowHash nowMeta : String) :
    Except (String × CommitFS) (CommitMeta × CommitFS) :=
  if fs.staging.isEmpty then .error ("No files staged for commit", fs)
  -- os.makedirs(commit_dir) has no exist_ok: an existing directory raises
  else if (fs.commits.lookup (commit_hash message author nowHash)).isSome then
    .error ("FileExistsError", fs)
  else if failAt = some 0 then .error ("write failed", fs)
  else
    match commit_copy_files failAt fs.staging 1 with
    | .error partialFiles =>
        .error ("write failed",
          { fs with commits :=
              fs.commits ++ [(commit_hash message author nowHash, ⟨partialFiles, none⟩)] })
    | .ok (dirFiles, metas) =>
        if failAt = some (fs.staging.length + 1) then
          .error ("write failed",
            { fs with commits :=
                fs.commits ++ [(commit_hash message author nowHash, ⟨dirFiles, none⟩)] })
        else
          match clear_staging_area failAt fs.staging (fs.staging.length + 2) with
          | .error remaining =>
              .error ("write failed",
                { staging := remaining,
                  commits := fs.commits ++
                    [(commit_hash message author nowHash,
                      ⟨dirFiles,
                       some ⟨commit_hash message author nowHash, message, author,
                             nowMeta, metas⟩⟩)] })
          | .ok _ =>
              .ok (⟨commit_hash message author nowHash, message, author, nowMeta, metas⟩,
                { staging := [],
                  commits := fs.commits ++
                    [(commit_hash message author nowHash,
                      ⟨dirFiles,
                       some ⟨commit_hash message author nowHash, message, author,
                             nowMeta, metas⟩⟩)] })

instance {ε α : Type} [DecidableEq ε] [DecidableEq α] : DecidableEq (Except ε α) :=
  fun x y =>
    match x, y with
    | .ok a, .ok b =>
        if h : a = b then isTrue (by rw [h]) else isFalse (fun he => by cases he; exact h rfl)
    | .error a, .error b =>
        if h : a = b then isTrue (by rw [h]) else isFalse (fun he => by cases he; exact h rfl)
    | .ok _, .error _ => isFalse (fun he => by cases he)
    | .error _, .ok _ => isFalse (fun he => by cases he)

/-! ### Helper lemmas about `create_commit` -/

/-- A fault inside `_clear_staging_area` can only be at an operation
index at or past the phase's starting index. -/
theorem clear_staging_area_error_ge (failAt : Option Nat) :
    ∀ (l : List (String × List Nat)) (op : Nat) (r : List (String × List Nat)),
      clear_staging_area failAt l op = .error r → ∃ j, failAt = some j ∧ op ≤ j := by
  intro l
  induction l with
  | nil => intro op r h; simp [clear_staging_area] at h
  | cons x rest ih =>
      intro op r h
      unfold clear_staging_area at h
      split at h
      · next hif => exact ⟨op, hif, le_refl op⟩
      · obtain ⟨j, hj, hle⟩ := ih (op + 1) r h
        exact ⟨j, hj, by omega⟩

/-- Every successful `create_commit` run returns the metadata built in
its final branch: the hash is `commit_hash message author nowHash`. -/
theorem create_commit_ok_hash {failAt : Option Nat} {fs : CommitFS}
    {message author nowHash nowMeta : String} {m : CommitMeta} {fs' : CommitFS}
    (h : create_commit failAt fs message author nowHash nowMeta = .ok (m, fs')) :
    m.hash = commit_hash message author nowHash := by
  unfold create_commit at h
  split at h
  · simp at h
  · split at h
    · simp at h
    · split at h
      · simp at h
      · split at h
        · simp at h
        · split at h
          · simp at h
          · split at h
            · simp at h
            · simp only [Except.ok.injEq, Prod.mk.injEq] at h
              rw [← h.1]

/-- Claim C1, as stated, is false: `create_commit` hashes only
`message ++ author ++ now`, so two commits created from the identical
one-file tree with identical message and author, one second apart, get
different hashes.  Both runs succeed on the concrete state. -/
def cfsC1 : CommitFS := ⟨[("a.txt", strBytes "v1")], []⟩

def c1meta : CommitMeta :=
  ⟨"c0190745", "m", "a", "ts",
   [⟨"a.txt", "3bfc269594ef649228e9a74bab00f042efc91d5acc6fbee31a382e80d42388fe"⟩]⟩

def c1fs' : CommitFS :=
  ⟨[], [("c0190745", ⟨[("a.txt", strBytes "v1")], some c1meta⟩)]⟩

/-- Claim C1 (counterexample): two commits created by `create_commit`
from identical trees with identical message and author (and no parent —
the code has none) do **not** have equal hashes: created at
wall-clock times one second apart, the first 8 hex digits of
SHA-256 over `message ++ author ++ now` differ. -/
theorem create_commit_hash_ignores_tree_cex :
    ((create_commit none cfsC1 "m" "a" "2024-01-01T00:00:00" "ts").toOption.map
        (fun r => r.1.hash)).isSome = true ∧
    (create_commit none cfsC1 "m" "a" "2024-01-01T00:00:00" "ts").toOption.map
        (fun r => r.1.hash) ≠
      (create_commit none cfsC1 "m" "a" "2024-01-01T00:00:01" "ts").toOption.map
        (fun r => r.1.hash) := by
  exact ⟨by decide, by decide⟩

/-- Claim C1 (amended): the commit hash is the first eight hex digits of
SHA-256 over the concatenation of message, author, and the wall-clock
timestamp at creation; it is entirely independent of the staged tree
(and of any parent, which the code does not track), so any two commits
with identical message, author, and creation timestamp have equal
hashes even when their trees differ. -/
theorem create_commit_hash_eq_sha256_of_message_author_time
    (failAt₁ failAt₂ : Option Nat) (fs₁ fs₂ : CommitFS)
    (msg author nh nm₁ nm₂ : String)
    (m₁ m₂ : CommitMeta) (fs₁' fs₂' : CommitFS)
    (h₁ : create_commit failAt₁ fs₁ msg author nh nm₁ = .ok (m₁, fs₁'))
    (h₂ : create_commit failAt₂ fs₂ msg author nh nm₂ = .ok (m₂, fs₂')) :
    m₁.hash = m₂.hash ∧
      m₁.hash = (sha256Hex (strBytes (msg ++ author ++ nh))).take 8 := by
  have e₁ := create_commit_ok_hash h₁
  have e₂ := create_commit_ok_hash h₂
  exact ⟨e₁.trans e₂.symm, e₁⟩

/-- Witness for the amended claim C1 at a concrete input. -/
theorem create_commit_hash_eq_sha256_witness :
    c1meta.hash = c1meta.hash ∧
      c1meta.hash = (sha256Hex (strBytes ("m" ++ "a" ++ "2024-01-01T00:00:00"))).take 8 :=
  create_commit_hash_eq_sha256_of_message_author_time
    none none cfsC1 cfsC1 "m" "a" "2024-01-01T00:00:00" "ts" "ts"
    c1meta c1meta c1fs' c1fs' (by decide) (by decide)

/-- Claim C5: committing with an empty staging index fails (the code's
`ValueError("No files staged for commit")`, the spec's `StateError`) and
leaves the state — in particular the set of stored commits — unchanged. -/
theorem create_commit_empty_staging_error
    (failAt : Option Nat) (fs : CommitFS) (msg author nh nm : String)
    (h : fs.staging = []) :
    create_commit failAt fs msg author nh nm =
      .error ("No files staged for commit", fs) := by
  unfold create_commit
  simp [h]

/-- Witness for claim C5 at a concrete input. -/
theorem create_commit_empty_staging_error_witness :
    create_commit none (⟨[], []⟩ : CommitFS) "m" "a" "t1" "t2" =
      .error ("No files staged for commit", (⟨[], []⟩ : CommitFS)) :=
  create_commit_empty_staging_error none ⟨[], []⟩ "m" "a" "t1" "t2" rfl

/-- Two staged files for the C4 counterexample. -/
def c4fs : CommitFS := ⟨[("a.txt", strBytes "1"), ("b.txt", strBytes "2")], []⟩

/-- Claim C4 (counterexample): a write failure during `create_commit`
**does** leave a partial commit object visible.  With two staged files
and the copy of the second file failing (operation 2), the run raises
while the commits directory already holds a commit directory containing
the first file and no metadata: the stored-commit set changed. -/
theorem create_commit_partial_commit_visible_cex :
    create_commit (some 2) c4fs "m" "a" "2024-01-01T00:00:00" "ts" =
      .error ("write failed",
        ⟨c4fs.staging, [("c0190745", ⟨[("a.txt", strBytes "1")], none⟩)]⟩) ∧
    ([("c0190745", (⟨[("a.txt", strBytes "1")], none⟩ : CommitDir))] ≠ c4fs.commits) := by
  exact ⟨by decide, by decide⟩

/-- Claim C4 (amended): the staging index is cleared only after all
commit file and metadata writes succeed — after a successful
`create_commit` the staging index is empty, and a write failure at any
operation before the clear phase leaves the staging index unmodified —
but a failed write may leave a partially written commit object visible
(there is no rollback). -/
theorem create_commit_staging_cleared_last
    (failAt : Option Nat) (fs : CommitFS) (msg author nh nm : String) :
    (∀ m fs', create_commit failAt fs msg author nh nm = .ok (m, fs') →
        fs'.staging = []) ∧
    (∀ e fs' k, failAt = some k → k < fs.staging.length + 2 →
        create_commit failAt fs msg author nh nm = .error (e, fs') →
        fs'.staging = fs.staging) := by
  constructor
  · intro m fs' h
    unfold create_commit at h
    split at h
    · simp at h
    · split at h
      · simp at h
      · split at h
        · simp at h
        · split at h
          · simp at h
          · split at h
            · simp at h
            · split at h
              · simp at h
              · simp only [Except.ok.injEq, Prod.mk.injEq] at h
                rw [← h.2]
  · intro e fs' k hk hlt h
    unfold create_commit at h
    split at h
    · simp only [Except.error.injEq, Prod.mk.injEq] at h
      rw [← h.2]
    · split at h
      · simp only [Except.error.injEq, Prod.mk.injEq] at h
        rw [← h.2]
      · split at h
        · simp only [Except.error.injEq, Prod.mk.injEq] at h
          rw [← h.2]
        · split at h
          · simp only [Except.error.injEq, Prod.mk.injEq] at h
            rw [← h.2]
          · split at h
            · simp only [Except.error.injEq, Prod.mk.injEq] at h
              rw [← h.2]
            · split at h
              · next heq =>
                  obtain ⟨j, hj, hge⟩ :=
                    clear_staging_area_error_ge failAt fs.staging
                      (fs.staging.length + 2) _ heq
                  rw [hk] at hj
                  cases hj
                  omega
              · simp at h

/-- Witness for the amended claim C4 at a concrete input. -/
theorem create_commit_staging_cleared_last_witness : c1fs'.staging = [] :=
  (create_commit_staging_cleared_last none cfsC1 "m" "a"
      "2024-01-01T00:00:00" "ts").1 c1meta c1fs' (by decide)

/-! ## Generic persisted-document helpers

Python writes with `open(path, "w")` replace an existing file and create
a missing one; `dict[k] = v` updates in place or appends a new key;
`del dict[k]` / `os.remove` drop one entry. -/

/-- Replace the entry at `k` if present (keeping its position), append
otherwise. -/
def fsWrite {β : Type} (k : String) (v : β) : List (String × β) → List (String × β)
  | [] => [(k, v)]
  | (k', v') :: rest => if k' = k then (k, v) :: rest else (k', v') :: fsWrite k v rest

/-- Remove the (first) entry at `k`. -/
def fsRemove {β : Type} (k : String) : List (String × β) → List (String × β)
  | [] => []
  | (k', v') :: rest => if k' = k then rest else (k', v') :: fsRemove k rest

/-! ## Object store (`src/core/repository.py`, `Repository.store_object`)

`store_object` names each stored object `str(uuid.uuid4())` — a freshly
generated identifier.  `uuid.uuid4` is modelled as drawing the next
value from an identifier supply `uuidSupply` at a counter threaded
through the store state; freshness/injectivity of the supply stands for
the (overwhelming-probability) distinctness of random UUIDs. -/

structure ObjRecord where
  otype : String
  size : Nat
  content : List Nat
deriving Repr, DecidableEq

structure ObjectStore where
  objects : List (String × ObjRecord)
  uuidCtr : Nat
deriving Repr, DecidableEq

/-- `Repository.store_object(content, object_type)` (lines 139-168):
generate `object_hash = str(uuid.uuid4())`, write metadata plus content
at `objects/<object_hash>`, return the hash. -/
def store_object (uuidSupply : Nat → String) (st : ObjectStore)
    (content : List Nat) (object_type : String) : String × ObjectStore :=
  (uuidSupply st.uuidCtr,
   { objects := fsWrite (uuidSupply st.uuidCtr)
       ⟨object_type, content.length, content⟩ st.objects,
     uuidCtr := st.uuidCtr + 1 })

/-- Claim C2 (counterexample): storing the same byte sequence twice does
**not** yield the same hash and is **not** idempotent.  With the
identifier supply `Nat.repr` (two successive fresh UUIDs) and an empty
store, storing the bytes of `"x"` twice returns `"0"` then `"1"` and
leaves two distinct objects in the store. -/
theorem store_object_not_content_addressed_cex :
    (store_object Nat.repr ⟨[], 0⟩ (strBytes "x") "blob").1 = "0" ∧
    (store_object Nat.repr
        (store_object Nat.repr ⟨[], 0⟩ (strBytes "x") "blob").2
        (strBytes "x") "blob").1 = "1" ∧
    (store_object Nat.repr
        (store_object Nat.repr ⟨[], 0⟩ (strBytes "x") "blob").2
        (strBytes "x") "blob").2.objects.length = 2 := by
  exact ⟨by decide, by decide, by decide⟩

/-- Claim C2 (amended): the returned hash is a freshly generated
identifier, not a function of the byte sequence: it is the same
whatever content is stored in a given state, and — provided the UUID
supply yields fresh, distinct identifiers — storing the same bytes
twice returns two different hashes and adds two distinct objects. -/
theorem store_object_fresh_identifier
    (uuidSupply : Nat → String) (st : ObjectStore)
    (content other : List Nat) (t1 t2 : String)
    (hne : uuidSupply st.uuidCtr ≠ uuidSupply (st.uuidCtr + 1)) :
    (store_object uuidSupply st other t1).1 = (store_object uuidSupply st content t1).1 ∧
    (store_object uuidSupply st content t1).1 ≠
      (store_object uuidSupply (store_object uuidSupply st content t1).2 content t2).1 := by
  refine ⟨rfl, ?_⟩
  simpa [store_object] using hne

/-- Witness for the amended claim C2 at a concrete input. -/
theorem store_object_fresh_identifier_witness :
    (store_object Nat.repr ⟨[], 0⟩ (strBytes "y") "blob").1 =
      (store_object Nat.repr ⟨[], 0⟩ (strBytes "x") "blob").1 ∧
    (store_object Nat.repr ⟨[], 0⟩ (strBytes "x") "blob").1 ≠
      (store_object Nat.repr
        (store_object Nat.repr ⟨[], 0⟩ (strBytes "x") "blob").2
        (strBytes "x") "blob").1 :=
  store_object_fresh_identifier Nat.repr ⟨[], 0⟩ (strBytes "x") (strBytes "y")
    "blob" "blob" (by decide)

/-- Find the entry at `k` (Python `dict[k]` / `dict.get(k)` /
`k in dict`). -/
def fsLookup {β : Type} (k : String) : List (String × β) → Option β
  | [] => none
  | (k', v') :: rest => if k' = k then some v' else fsLookup k rest

/-- `'c' in s` on a Python string. -/
def strContains (s : String) (c : Char) : Bool := s.data.contains c

theorem fsWrite_fsLookup_self {β : Type} (k : String) (v : β) (l : List (String × β)) :
    fsLookup k (fsWrite k v l) = some v := by
  induction l with
  | nil => simp [fsWrite, fsLookup]
  | cons p rest ih =>
      obtain ⟨k', v'⟩ := p
      by_cases h : k' = k
      · simp [fsWrite, fsLookup, h]
      · simp [fsWrite, fsLookup, h, ih]

theorem fsWrite_fsLookup_ne {β : Type} (k k' : String) (v : β) (l : List (String × β))
    (h : k ≠ k') : fsLookup k (fsWrite k' v l) = fsLookup k l := by
  have h' : ¬(k' = k) := fun he => h he.symm
  induction l with
  | nil => simp [fsWrite, fsLookup, h']
  | cons p rest ih =>
      obtain ⟨k'', v''⟩ := p
      by_cases hp : k'' = k'
      · subst hp
        simp [fsWrite, fsLookup, h']
      · simp [fsWrite, fsLookup, hp, ih]

/-! ## Branch registry (`src/core/branch.py`, class `Branch`)

State: the `branches.json` document `{current_branch, branches}`. -/

structure BranchInfo where
  head_commit : Option String
  created_at : Option String
  base_branch : Option String
deriving Repr, DecidableEq

structure BranchesConfig where
  current_branch : String
  branches : List (String × BranchInfo)
deriving Repr, DecidableEq

/-- Line 90, `base_branch or branches_config['current_branch']`: Python
treats both `None` and the empty string as falsy. -/
def resolve_base (cfg : BranchesConfig) : Option String → String
  | none => cfg.current_branch
  | some b => if b = "" then cfg.current_branch else b

/-- `Branch.create_branch(branch_name, base_branch)` (lines 69-111). -/
def create_branch (cfg : BranchesConfig) (branch_name : String)
    (base_branch : Option String) (now : String) :
    Except String (BranchInfo × BranchesConfig) :=
  if branch_name = "" ∨ strContains branch_name '/' then
    .error "Invalid branch name. Must be non-empty and cannot contain a slash."
  else if (fsLookup branch_name cfg.branches).isSome then
    .error "Branch already exists."
  else
    match fsLookup (resolve_base cfg base_branch) cfg.branches with
    | none => .error "Base branch does not exist."
    | some base_info =>
        .ok (BranchInfo.mk base_info.head_commit (some now) (some (resolve_base cfg base_branch)),
          { cfg with
            branches :=
              fsWrite branch_name
                (BranchInfo.mk base_info.head_commit (some now)
                  (some (resolve_base cfg base_branch)))
                cfg.branches })

/-- `Branch.switch_branch(branch_name)` (lines 113-136). -/
def switch_branch (cfg : BranchesConfig) (branch_name : String) :
    Except String (String × BranchesConfig) :=
  if (fsLookup branch_name cfg.branches).isSome then
    .ok (branch_name, { cfg with current_branch := branch_name })
  else .error "Branch does not exist."

/-- `Branch.update_branch_head(branch_name, commit_hash)` (lines 152-173). -/
def update_branch_head (cfg : BranchesConfig) (branch_name commit_hash : String) :
    Except String BranchesConfig :=
  match fsLookup branch_name cfg.branches with
  | none => .error "Branch does not exist."
  | some info =>
      .ok { cfg with
            branches :=
              fsWrite branch_name
                (BranchInfo.mk (some commit_hash) info.created_at info.base_branch)
                cfg.branches }

/-- `Branch.get_branch_head(branch_name)` (lines 186-203). -/
def get_branch_head (cfg : BranchesConfig) (branch_name : Option String) :
    Except String (Option String) :=
  match fsLookup (match branch_name with
    | none => cfg.current_branch
    | some b => b) cfg.branches with
  | none => .error "Branch does not exist."
  | some info => .ok info.head_commit

/-- Claim C6: for a valid, unused branch name and an existing base
branch (defaulting, per `base_branch or current`, to the current
branch), `create_branch` records a new branch whose head is a copy of
the base's head at creation time; a later `update_branch_head` on the
base leaves the new branch's head untouched — the branch does not track
its base. -/
theorem create_branch_copies_base_head
    (cfg : BranchesConfig) (name : String) (base? : Option String)
    (now newHead : String) (info nb : BranchInfo) (cfg' cfg'' : BranchesConfig)
    (hname : ¬(name = "" ∨ strContains name '/' = true))
    (hnew : fsLookup name cfg.branches = none)
    (hbase : fsLookup (resolve_base cfg base?) cfg.branches = some info)
    (hc : create_branch cfg name base? now = .ok (nb, cfg'))
    (hu : update_branch_head cfg' (resolve_base cfg base?) newHead = .ok cfg'') :
    nb.head_commit = info.head_commit ∧
    fsLookup name cfg'.branches = some nb ∧
    fsLookup name cfg''.branches = some nb := by
  have hne : name ≠ resolve_base cfg base? := by
    intro he
    rw [← he, hnew] at hbase
    exact absurd hbase (by simp)
  unfold create_branch at hc
  rw [if_neg (by simpa using hname)] at hc
  rw [hnew] at hc
  simp only [Option.isSome_none, Bool.false_eq_true, if_false, hbase,
    Except.ok.injEq, Prod.mk.injEq] at hc
  obtain ⟨hnb, hcfg'⟩ := hc
  have h1 : fsLookup name cfg'.branches = some nb := by
    rw [← hcfg', ← hnb]
    exact fsWrite_fsLookup_self name _ cfg.branches
  refine ⟨by rw [← hnb], h1, ?_⟩
  unfold update_branch_head at hu
  cases hlk : fsLookup (resolve_base cfg base?) cfg'.branches with
  | none => rw [hlk] at hu; exact absurd hu (by simp)
  | some i' =>
      rw [hlk] at hu
      simp only [Except.ok.injEq] at hu
      rw [← hu]
      rw [fsWrite_fsLookup_ne name (resolve_base cfg base?) _ cfg'.branches hne]
      exact h1

/-- Witness for claim C6 at a concrete input. -/
theorem create_branch_copies_base_head_witness :
    (BranchInfo.mk (some "h0") (some "T") (some "main")).head_commit =
      (BranchInfo.mk (some "h0") none none).head_commit ∧
    fsLookup "feat"
        (BranchesConfig.mk "main"
          [("main", BranchInfo.mk (some "h0") none none),
           ("feat", BranchInfo.mk (some "h0") (some "T") (some "main"))]).branches =
      some (BranchInfo.mk (some "h0") (some "T") (some "main")) ∧
    fsLookup "feat"
        (BranchesConfig.mk "main"
          [("main", BranchInfo.mk (some "h1") none none),
           ("feat", BranchInfo.mk (some "h0") (some "T") (some "main"))]).branches =
      some (BranchInfo.mk (some "h0") (some "T") (some "main")) :=
  create_branch_copies_base_head
    (BranchesConfig.mk "main" [("main", BranchInfo.mk (some "h0") none none)])
    "feat" (some "main") "T" "h1"
    (BranchInfo.mk (some "h0") none none)
    (BranchInfo.mk (some "h0") (some "T") (some "main"))
    (BranchesConfig.mk "main"
      [("main", BranchInfo.mk (some "h0") none none),
       ("feat", BranchInfo.mk (some "h0") (some "T") (some "main"))])
    (BranchesConfig.mk "main"
      [("main", BranchInfo.mk (some "h1") none none),
       ("feat", BranchInfo.mk (some "h0") (some "T") (some "main"))])
    (by decide) (by decide) (by decide) (by decide) (by decide)

/-! ## Paths and the working filesystem

Absolute paths are segment lists from the filesystem root; the working
filesystem is a list of `(absolute path, bytes)` regular files (walk
order = list order).  `Staging.add` applies `os.path.abspath` to its
argument; the embedding takes the already-resolved absolute path. -/

abbrev AbsPath := List String

/-- Assoc lookup over path-keyed files (`open(path, "rb")`). -/
def lookupFile (files : List (AbsPath × List Nat)) (p : AbsPath) : Option (List Nat) :=
  match files with
  | [] => none
  | (q, c) :: rest => if q = p then some c else lookupFile rest p

/-- `q` lies strictly below directory `p`. -/
def underDir (p q : AbsPath) : Bool := p.isPrefixOf q && decide (p.length < q.length)

/-- `os.path.exists`: a regular file or a (non-empty) directory. -/
def pathExists (files : List (AbsPath × List Nat)) (p : AbsPath) : Bool :=
  files.any (fun f => f.1 = p) || files.any (fun f => underDir p f.1)

/-- `os.path.isdir`. -/
def isDir (files : List (AbsPath × List Nat)) (p : AbsPath) : Bool :=
  files.any (fun f => underDir p f.1)

/-- `os.walk(p)`: every regular file strictly below `p`, in walk order. -/
def filesUnder (files : List (AbsPath × List Nat)) (p : AbsPath) : List AbsPath :=
  (files.filter (fun f => underDir p f.1)).map (fun f => f.1)

/-- Drop the longest common leading run of two segment lists. -/
def dropCommonStem : List String → List String → (List String × List String)
  | a :: as, b :: bs => if a = b then dropCommonStem as bs else (a :: as, b :: bs)
  | as, bs => (as, bs)

/-- `os.path.relpath(path, base)`: `..` for each base segment past the
common part, then the remaining path segments (`.` when equal). -/
def relpath (path base : AbsPath) : List String :=
  match dropCommonStem path base with
  | (ptail, btail) =>
      match btail.map (fun _ => "..") ++ ptail with
      | [] => ["."]
      | r => r

/-- Join segments with `/` (how Python renders these relative paths). -/
def joinPath : List String → String
  | [] => ""
  | [s] => s
  | s :: rest => s ++ "/" ++ joinPath rest

/-! ## Ignore patterns (`src/core/ignore.py`, class `IgnoreManager`)

`should_ignore` matches the repo-relative path against each pattern:
a pattern ending in `/` is also tried against `rel_path + "/"`;
otherwise `fnmatch`-style glob matching applies (`*` matches any run of
characters including separators, `?` exactly one) anchored to the whole
string, and the regex fallback of lines 70-78 is the same anchored glob
semantics.  Bracket character classes are not used by this repository
and are not modelled.  The matcher is written with a structural fuel
argument (any fuel above `pattern length + string length` is exact). -/

def globMatchF : Nat → List Char → List Char → Bool
  | 0, _, _ => false
  | fuel + 1, p, s =>
      match p, s with
      | [], [] => true
      | [], _ :: _ => false
      | '*' :: ps, [] => globMatchF fuel ps []
      | '*' :: ps, c :: cs => globMatchF fuel ps (c :: cs) || globMatchF fuel ('*' :: ps) cs
      | '?' :: _, [] => false
      | '?' :: ps, _ :: cs => globMatchF fuel ps cs
      | _ :: _, [] => false
      | pc :: ps, c :: cs => pc = c && globMatchF fuel ps cs

/-- `fnmatch.fnmatch(s, pat)` for patterns built from literals, `*`, `?`. -/
def globMatch (pat s : List Char) : Bool :=
  globMatchF (pat.length + s.length + 1) pat s

/-- `IgnoreManager.should_ignore(path)` (lines 49-80). -/
def should_ignore (patterns : List String) (repoPath : AbsPath) (path : AbsPath) : Bool :=
  patterns.any (fun pat =>
    (pat.data.getLast? = some '/' &&
      globMatch pat.data (joinPath (relpath path repoPath) ++ "/").data) ||
    globMatch pat.data (joinPath (relpath path repoPath)).data)

/-- Sanity anchors for the glob matcher (spec §8: `*.log` matches
`a.log` and not `a.logx`; `*` crosses separators). -/
example : globMatch "*.log".data "a.log".data = true := by decide
example : globMatch "*.log".data "a.logx".data = false := by decide
example : globMatch "a*c".data "a/b/c".data = true := by decide
example : globMatch "a?c".data "abc".data = true := by decide
example : globMatch "a?c".data "ac".data = false := by decide

/-! ## Staging area (`src/core/staging.py`, class `Staging`)

State: the working filesystem, the repository root, the loaded ignore
patterns, the `index` document (repo-relative path string ↦
`{hash, staged_at}`), and the `staged` directory whose files are named
by content hash. -/

structure IndexEntry where
  hash : String
  staged_at : Nat
deriving Repr, DecidableEq

structure StagingState where
  repoPath : AbsPath
  ignorePatterns : List String
  workFiles : List (AbsPath × List Nat)
  index : List (String × IndexEntry)
  staged : List (String × List Nat)
deriving Repr, DecidableEq

/-- `Staging._stage_single_file(filepath)` (lines 74-92): hash the file,
copy it to `staged/<hash>`, upsert the index entry at the repo-relative
path.  (`staged_at` is the blob file's ctime; passed in as `now`.) -/
def stage_single_file (now : Nat) (st : StagingState) (filepath : AbsPath) : StagingState :=
  match lookupFile st.workFiles filepath with
  | none => st
  | some content =>
      { st with
        staged := fsWrite (sha256Hex content) content st.staged,
        index := fsWrite (joinPath (relpath filepath st.repoPath))
          ⟨sha256Hex content, now⟩ st.index }

/-- `Staging.add(filepath)` (lines 44-72): resolve to an absolute path,
raise if it does not exist, silently skip if ignored, recurse over a
directory staging every non-ignored file, else stage the single file. -/
def staging_add (now : Nat) (st : StagingState) (filepath : AbsPath) :
    Except String StagingState :=
  if pathExists st.workFiles filepath = false then
    .error ("Path does not exist: " ++ joinPath filepath)
  else if should_ignore st.ignorePatterns st.repoPath filepath then
    .ok st
  else if isDir st.workFiles filepath then
    .ok ((filesUnder st.workFiles filepath).foldl
      (fun acc f =>
        if should_ignore acc.ignorePatterns acc.repoPath f then acc
        else stage_single_file now acc f) st)
  else
    .ok (stage_single_file now st filepath)

/-- `Staging.reset(filepath)` (lines 171-203): with a path, drop its
index entry and remove the staged blob named by its hash (no check for
other entries sharing the hash); with no path, drop every index entry
and its blob. -/
def staging_reset (st : StagingState) (filepath : Option AbsPath) : StagingState :=
  match filepath with
  | some fp =>
      match fsLookup (joinPath (relpath fp st.repoPath)) st.index with
      | none => st
      | some entry =>
          { st with
            index := fsRemove (joinPath (relpath fp st.repoPath)) st.index,
            staged := fsRemove entry.hash st.staged }
  | none =>
      { st with
        index := [],
        staged := st.staged.filter
          (fun b => ¬ st.index.any (fun e => e.2.hash = b.1)) }

/-- Spec §3 invariant: every staged hash has a corresponding blob. -/
def staging_consistent (st : StagingState) : Bool :=
  st.index.all (fun e => (fsLookup e.2.hash st.staged).isSome)

/-- Concrete state for the C7 counterexample: the repository lives at
`/repo`, and `/outside.txt` is an existing, non-ignored file outside
it. -/
def c7st : StagingState :=
  ⟨["repo"], [], [(["outside.txt"], strBytes "z")], [], []⟩

/-- Claim C7 (counterexample): `Staging.add` does **not** fail for a
path outside the repository: adding the existing, non-ignored
`/outside.txt` to the repository at `/repo` succeeds and stages it
under the parent-relative key `../outside.txt`. -/
theorem staging_add_outside_repo_cex :
    (staging_add 0 c7st ["outside.txt"]).toOption.map
        (fun s => s.index.map Prod.fst) = some ["../outside.txt"] := by
  decide

/-- Claim C7 (amended): `add` resolves its argument to an absolute path
and fails if the path does not exist; ignored paths are silently
skipped without error and without mutation; any existing, non-ignored
regular file is staged at its repo-relative key — whether or not the
path lies inside the repository (no containment check is performed). -/
theorem staging_add_no_containment_check
    (now : Nat) (st : StagingState) (p : AbsPath) :
    (pathExists st.workFiles p = false →
      staging_add now st p = .error ("Path does not exist: " ++ joinPath p)) ∧
    (pathExists st.workFiles p = true →
      should_ignore st.ignorePatterns st.repoPath p = true →
      staging_add now st p = .ok st) ∧
    (pathExists st.workFiles p = true →
      should_ignore st.ignorePatterns st.repoPath p = false →
      isDir st.workFiles p = false →
      staging_add now st p = .ok (stage_single_file now st p)) := by
  refine ⟨fun h1 => ?_, fun h1 h2 => ?_, fun h1 h2 h3 => ?_⟩
  · unfold staging_add
    rw [if_pos (by rw [h1])]
  · unfold staging_add
    rw [if_neg (by rw [h1]; simp), if_pos h2]
  · unfold staging_add
    rw [if_neg (by rw [h1]; simp), if_neg (by rw [h2]; simp),
      if_neg (by rw [h3]; simp)]

/-- Witness for the amended claim C7 at a concrete input (the
existing, non-ignored, outside-the-repository file of `c7st`). -/
theorem staging_add_no_containment_check_witness :
    staging_add 0 c7st ["outside.txt"] =
      .ok (stage_single_file 0 c7st ["outside.txt"]) :=
  (staging_add_no_containment_check 0 c7st ["outside.txt"]).2.2
    (by decide) (by decide) (by decide)

/-- Concrete state for the C8 counterexample: two staged paths `a` and
`b` share one content hash `"h"`, whose blob is present; the invariant
holds before the reset. -/
def c8st : StagingState :=
  ⟨["repo"], [], [],
   [("a", ⟨"h", 0⟩), ("b", ⟨"h", 0⟩)],
   [("h", strBytes "z")]⟩

/-- Claim C8 (counterexample): `reset(p)` removes the staged blob even
though another index entry references the same hash: resetting `a`
leaves `b`'s entry pointing at a hash with no corresponding blob — the
claimed consistency of staged hashes with the content store is
violated. -/
theorem staging_reset_shared_hash_cex :
    staging_consistent c8st = true ∧
    (staging_reset c8st (some ["repo", "a"])).index = [("b", ⟨"h", 0⟩)] ∧
    (staging_reset c8st (some ["repo", "a"])).staged = [] ∧
    staging_consistent (staging_reset c8st (some ["repo", "a"])) = false := by
  exact ⟨by decide, by decide, by decide, by decide⟩

/-- Claim C8 (amended): for a staged path `p`, `reset(p)` removes `p`'s
index entry and deletes the staged blob named by `p`'s hash
unconditionally — without checking whether any other index entry
references the same hash — so a remaining entry sharing the hash is
left without a corresponding blob. -/
theorem staging_reset_removes_blob_unconditionally
    (st : StagingState) (fp : AbsPath) (e : IndexEntry)
    (h : fsLookup (joinPath (relpath fp st.repoPath)) st.index = some e) :
    (staging_reset st (some fp)).index =
      fsRemove (joinPath (relpath fp st.repoPath)) st.index ∧
    (staging_reset st (some fp)).staged = fsRemove e.hash st.staged := by
  simp [staging_reset, h]

/-- Witness for the amended claim C8 at a concrete input. -/
theorem staging_reset_removes_blob_unconditionally_witness :
    (staging_reset c8st (some ["repo", "a"])).index =
      fsRemove "a" c8st.index ∧
    (staging_reset c8st (some ["repo", "a"])).staged =
      fsRemove "h" c8st.staged :=
  staging_reset_removes_blob_unconditionally c8st ["repo", "a"]
    ⟨"h", 0⟩ (by decide)

/-! ## History log (`src/core/history.py`, class `History`) -/

structure HistoryRecord where
  hash : String
  branch : String
  message : String
  timestamp : String
  files_changed : List String
  parent : Option String
deriving Repr, DecidableEq

/-- `History.record_commit` (lines 34-66): append one record. -/
def record_commit (history : List HistoryRecord) (commit_hash branch message now : String)
    (files_changed : List String) (parent_hash : Option String) :
    HistoryRecord × List HistoryRecord :=
  (⟨commit_hash, branch, message, now, files_changed, parent_hash⟩,
   history ++ [⟨commit_hash, branch, message, now, files_changed, parent_hash⟩])

/-! ## Merge engine (`src/core/merge.py`, class `Merge`)

State: the branch snapshots (`branches/<name>`; existence check of
`merge()` lines 54-57, and — via the spec-modelled `compare_branches` —
the file tree at each branch's head), the target working tree (text
files, repo-relative path ↦ content), the persisted
`merges/conflicts.json` document (`none` = file absent), plus the
branch-registry document and the history log, which `merge.py` never
imports or touches. -/

structure Conflict where
  path : String
  ctype : String
  source_content : Option String
  target_content : Option String
deriving Repr, DecidableEq

/-- A diff item as consumed by `_detect_conflicts` / `_apply_merge`:
a Python dict whose absent fields read as `None` under `.get`. -/
structure DiffItem where
  dtype : String
  path : String
  content : Option String
  source_content : Option String
  target_content : Option String
deriving Repr, DecidableEq

abbrev FileTree := List (String × String)

/-- Union of the two trees' paths (source first, then the target-only
ones), as sets of file paths referenced by the two snapshots. -/
def unionPaths (sourceTree targetTree : FileTree) : List String :=
  sourceTree.map Prod.fst ++
    (targetTree.map Prod.fst).filter (fun p => ¬ (sourceTree.map Prod.fst).contains p)

/-- Modelled from the spec: `Diff.compare_branches` is called by
`Merge.merge` (merge.py line 61) and by the CLI but is defined nowhere
in the repository.  Per spec §4.6/§4.7 it compares the two branch-head
snapshots over the union of their file paths: a path present only in
the source is `add` (carrying the new content), present only in the
target is `delete`, present in both is `modify` carrying both sides'
contents. -/
def classifyPath (sourceTree targetTree : FileTree) (p : String) : Option DiffItem :=
  match fsLookup p sourceTree, fsLookup p targetTree with
  | some sc, some tc => some ⟨"modify", p, none, some sc, some tc⟩
  | some sc, none => some ⟨"add", p, some sc, none, none⟩
  | none, some _ => some ⟨"delete", p, none, none, none⟩
  | none, none => none

def compare_branches (sourceTree targetTree : FileTree) : List DiffItem :=
  (unionPaths sourceTree targetTree).filterMap (classifyPath sourceTree targetTree)

/-- `Merge._detect_conflicts(differences)` (lines 77-105): a conflict is
any `modify` item whose two sides' contents differ. -/
def merge_detect_conflicts (differences : List DiffItem) : List Conflict :=
  differences.filterMap (fun d =>
    if d.dtype = "modify" then
      if d.source_content ≠ d.target_content then
        some ⟨d.path, "content_conflict", d.source_content, d.target_content⟩
      else none
    else none)

/-- One step of `Merge._apply_merge` (lines 131-175) on the working
tree.  (An `add`/`modify` item with a `None` content — impossible in
`compare_branches` output — would raise in Python before writing; the
tree is left unchanged.) -/
def merge_apply_item (tree : FileTree) (d : DiffItem) : FileTree :=
  if d.dtype = "add" then
    match d.content with
    | some c => fsWrite d.path c tree
    | none => tree
  else if d.dtype = "modify" then
    match d.source_content with
    | some c => fsWrite d.path c tree
    | none => tree
  else if d.dtype = "delete" then fsRemove d.path tree
  else tree

/-- `Merge._apply_merge`: the changes summary and the updated tree. -/
def merge_apply (tree : FileTree) (differences : List DiffItem) :
    List (String × String) × FileTree :=
  (differences.filterMap (fun d =>
      if d.dtype = "add" ∨ d.dtype = "modify" ∨ d.dtype = "delete" then
        some (d.dtype, d.path)
      else none),
   differences.foldl merge_apply_item tree)

structure MergeResult where
  source_branch : String
  target_branch : String
  changes : List (String × String)
deriving Repr, DecidableEq

structure MergeState where
  current_branch : String
  branches : List (String × FileTree)
  workingTree : FileTree
  conflictsFile : Option (List Conflict)
  branchDoc : BranchesConfig
  history : List HistoryRecord
deriving Repr, DecidableEq

/-- `Merge.merge(source_branch, target_branch)` (lines 28-75): validate
both branches, diff them, store conflicts and raise
`MergeConflictError` if any, else apply the changes to the working
tree.  Neither branch heads nor history are ever written. -/
def merge (st : MergeState) (source_branch : String) (target_branch? : Option String) :
    Except (String × MergeState) (MergeResult × MergeState) :=
  if (fsLookup source_branch st.branches).isNone then
    .error ("Source branch does not exist", st)
  else if (fsLookup (target_branch?.getD st.current_branch) st.branches).isNone then
    .error ("Target branch does not exist", st)
  else
    if (merge_detect_conflicts (compare_branches
          ((fsLookup source_branch st.branches).getD [])
          ((fsLookup (target_branch?.getD st.current_branch) st.branches).getD []))).isEmpty then
      .ok (⟨source_branch, target_branch?.getD st.current_branch,
            (merge_apply st.workingTree (compare_branches
              ((fsLookup source_branch st.branches).getD [])
              ((fsLookup (target_branch?.getD st.current_branch) st.branches).getD []))).1⟩,
        { st with
          workingTree := (merge_apply st.workingTree (compare_branches
            ((fsLookup source_branch st.branches).getD [])
            ((fsLookup (target_branch?.getD st.current_branch) st.branches).getD []))).2 })
    else
      .error ("Merge conflicts detected",
        { st with
          conflictsFile := some (merge_detect_conflicts (compare_branches
            ((fsLookup source_branch st.branches).getD [])
            ((fsLookup (target_branch?.getD st.current_branch) st.branches).getD []))) })

/-- `Merge.list_conflicts` (lines 179-189). -/
def list_conflicts (st : MergeState) : List Conflict :=
  (st.conflictsFile).getD []

/-- One step of the resolution loop of `Merge.resolve_conflicts`
(lines 204-216): if some pending conflict matches the path, write the
supplied content into the working tree and drop every conflict at that
path. -/
def resolve_step (acc : List Conflict × FileTree) (r : String × String) :
    List Conflict × FileTree :=
  if acc.1.any (fun c => c.path = r.1) then
    (acc.1.filter (fun c => ¬ c.path = r.1), fsWrite r.1 r.2 acc.2)
  else acc

/-- `Merge.resolve_conflicts(resolutions)` (lines 191-224): load the
pending conflicts (absent file: return unchanged), apply each
resolution, then persist the remainder — deleting the conflicts file
entirely when none remain. -/
def resolve_conflicts (st : MergeState) (resolutions : List (String × String)) :
    MergeState :=
  match st.conflictsFile with
  | none => st
  | some conflicts =>
      { st with
        workingTree := (resolutions.foldl resolve_step (conflicts, st.workingTree)).2,
        conflictsFile :=
          if (resolutions.foldl resolve_step (conflicts, st.workingTree)).1.isEmpty
          then none
          else some (resolutions.foldl resolve_step (conflicts, st.workingTree)).1 }

/-! ### Helper lemmas for the merge claims -/

/-- The conflict that `_detect_conflicts` produces for one path. -/
def conflictAt (sourceTree targetTree : FileTree) (p : String) : Option Conflict :=
  match fsLookup p sourceTree, fsLookup p targetTree with
  | some sc, some tc =>
      if sc ≠ tc then some ⟨p, "content_conflict", some sc, some tc⟩ else none
  | _, _ => none

theorem detect_compare_eq_conflictAt (sT tT : FileTree) :
    ∀ l : List String,
      merge_detect_conflicts (l.filterMap (classifyPath sT tT)) =
        l.filterMap (conflictAt sT tT) := by
  intro l
  induction l with
  | nil => rfl
  | cons p rest ih =>
      rw [List.filterMap_cons, List.filterMap_cons]
      cases hS : fsLookup p sT <;> cases hT : fsLookup p tT
      · simpa [classifyPath, conflictAt, hS, hT] using ih
      · simpa [classifyPath, conflictAt, hS, hT, merge_detect_conflicts,
          List.filterMap_cons] using ih
      · simpa [classifyPath, conflictAt, hS, hT, merge_detect_conflicts,
          List.filterMap_cons] using ih
      · next sc tc =>
          by_cases hc : sc = tc
          · simpa [classifyPath, conflictAt, hS, hT, hc, merge_detect_conflicts,
              List.filterMap_cons] using ih
          · simpa [classifyPath, conflictAt, hS, hT, hc, merge_detect_conflicts,
              List.filterMap_cons] using ih

theorem conflictAt_path (sT tT : FileTree) (q : String) (c : Conflict)
    (h : conflictAt sT tT q = some c) : c.path = q := by
  unfold conflictAt at h
  cases hS : fsLookup q sT <;> cases hT : fsLookup q tT <;> rw [hS, hT] at h
  · simp at h
  · simp at h
  · simp at h
  · next sc tc =>
      by_cases hc : sc = tc
      · simp [hc] at h
      · simp [hc] at h
        rw [← h]

theorem conflictAt_of_modified (sT tT : FileTree) (p cS cT : String)
    (hS : fsLookup p sT = some cS) (hT : fsLookup p tT = some cT) (hne : cS ≠ cT) :
    conflictAt sT tT p = some ⟨p, "content_conflict", some cS, some cT⟩ := by
  unfold conflictAt
  rw [hS, hT]
  simp [hne]

theorem fsLookup_some_mem_keys {β : Type} {k : String} {v : β} :
    ∀ {l : List (String × β)}, fsLookup k l = some v → k ∈ l.map Prod.fst := by
  intro l
  induction l with
  | nil => intro h; simp [fsLookup] at h
  | cons q rest ih =>
      intro h
      unfold fsLookup at h
      by_cases hq : q.1 = k
      · simp [hq]
      · rw [if_neg hq] at h
        simp [ih h]

/-- The filterMap of a path-preserving conflict producer over a
duplicate-free path list yields exactly one conflict per producing
path. -/
theorem filterMap_filter_path_eq {f : String → Option Conflict}
    (hf : ∀ q c, f q = some c → c.path = q) :
    ∀ (l : List String), l.Nodup → ∀ (p : String) (c : Conflict), p ∈ l →
      f p = some c → (l.filterMap f).filter (fun x => x.path = p) = [c] := by
  intro l
  induction l with
  | nil => intro _ p c hp; exact absurd hp (List.not_mem_nil p)
  | cons q rest ih =>
      intro hnd p c hp hfc
      rw [List.filterMap_cons]
      rcases List.mem_cons.mp hp with hqp | hprest
      · subst hqp
        rw [hfc]
        have hrest : (rest.filterMap f).filter (fun x => x.path = p) = [] := by
          rw [List.filter_eq_nil_iff]
          intro x hx
          obtain ⟨q', hq', hfq'⟩ := List.mem_filterMap.mp hx
          have : x.path = q' := hf q' x hfq'
          have hq'ne : q' ≠ p := by
            intro he
            exact (List.nodup_cons.mp hnd).1 (he ▸ hq')
          simp [this, hq'ne]
        simp [List.filter_cons, hf p c hfc, hrest]
      · have hqp : q ≠ p := by
          rintro rfl
          exact (List.nodup_cons.mp hnd).1 hprest
        cases hfq : f q with
        | none => exact ih (List.nodup_cons.mp hnd).2 p c hprest hfc
        | some cq =>
            have hcq : cq.path = q := hf q cq hfq
            simp [List.filter_cons, hcq, hqp,
              ih (List.nodup_cons.mp hnd).2 p c hprest hfc]

theorem unionPaths_nodup (sT tT : FileTree)
    (h1 : (sT.map Prod.fst).Nodup) (h2 : (tT.map Prod.fst).Nodup) :
    (unionPaths sT tT).Nodup := by
  unfold unionPaths
  refine List.Nodup.append h1 (List.Nodup.filter _ h2) ?_
  intro a ha hb
  have hprop := (List.mem_filter.mp hb).2
  simp only [decide_eq_true_eq] at hprop
  exact hprop (List.elem_eq_true_of_mem ha)

/-- Claim C3: when both branches exist and both modified the same path
to different content, `merge` raises `MergeConflictError` and the
resulting state differs from the input state **only** in the persisted
conflicts document, which holds the full detected conflict list — the
working tree, the branch registry (heads), the branch snapshots, and
the history log are unchanged; and that conflict list contains exactly
one conflict for the doubly-modified path. -/
theorem merge_conflict_is_all_or_nothing
    (st : MergeState) (source : String) (target? : Option String)
    (sourceTree targetTree : FileTree) (p cS cT : String)
    (hs : fsLookup source st.branches = some sourceTree)
    (ht : fsLookup (target?.getD st.current_branch) st.branches = some targetTree)
    (hnd1 : (sourceTree.map Prod.fst).Nodup)
    (hnd2 : (targetTree.map Prod.fst).Nodup)
    (hpS : fsLookup p sourceTree = some cS)
    (hpT : fsLookup p targetTree = some cT)
    (hne : cS ≠ cT) :
    merge st source target? =
      .error ("Merge conflicts detected",
        { st with
          conflictsFile :=
            some (merge_detect_conflicts (compare_branches sourceTree targetTree)) }) ∧
    ((merge_detect_conflicts (compare_branches sourceTree targetTree)).filter
        (fun c => c.path = p)).length = 1 := by
  have hconf : merge_detect_conflicts (compare_branches sourceTree targetTree) =
      (unionPaths sourceTree targetTree).filterMap (conflictAt sourceTree targetTree) :=
    detect_compare_eq_conflictAt sourceTree targetTree _
  have hmem : p ∈ unionPaths sourceTree targetTree := by
    unfold unionPaths
    exact List.mem_append_left _ (fsLookup_some_mem_keys hpS)
  have hfilter :
      ((unionPaths sourceTree targetTree).filterMap
          (conflictAt sourceTree targetTree)).filter (fun x => x.path = p) =
        [⟨p, "content_conflict", some cS, some cT⟩] :=
    filterMap_filter_path_eq (conflictAt_path sourceTree targetTree)
      (unionPaths sourceTree targetTree)
      (unionPaths_nodup sourceTree targetTree hnd1 hnd2) p
      ⟨p, "content_conflict", some cS, some cT⟩ hmem
      (conflictAt_of_modified sourceTree targetTree p cS cT hpS hpT hne)
  have hlen : ((merge_detect_conflicts (compare_branches sourceTree targetTree)).filter
      (fun c => c.path = p)).length = 1 := by
    rw [hconf, hfilter]
    rfl
  have hnonempty :
      ¬ (merge_detect_conflicts (compare_branches sourceTree targetTree)).isEmpty = true := by
    intro hE
    rw [List.isEmpty_iff] at hE
    rw [hE] at hlen
    simp at hlen
  refine ⟨?_, hlen⟩
  simp only [merge, hs, ht, Option.isNone_some, Option.getD_some, Bool.false_eq_true,
    if_false]
  rw [if_neg hnonempty]

/-- Concrete state for the C3 witness: `main` (current) and `feat` both
track `a.txt`, modified to `v2` on `main` and `v3` on `feat` (spec §8's
end-to-end scenario). -/
def c3st : MergeState :=
  ⟨"main",
   [("main", [("a.txt", "v2")]), ("feat", [("a.txt", "v3")])],
   [("a.txt", "v2")], none, ⟨"main", []⟩, []⟩

/-- Witness for claim C3 at a concrete input. -/
theorem merge_conflict_is_all_or_nothing_witness :
    merge c3st "feat" none =
      .error ("Merge conflicts detected",
        { c3st with
          conflictsFile :=
            some (merge_detect_conflicts (compare_branches
              [("a.txt", "v3")] [("a.txt", "v2")])) }) ∧
    ((merge_detect_conflicts (compare_branches
        [("a.txt", "v3")] [("a.txt", "v2")])).filter
        (fun c => c.path = "a.txt")).length = 1 :=
  merge_conflict_is_all_or_nothing c3st "feat" none
    [("a.txt", "v3")] [("a.txt", "v2")] "a.txt" "v3" "v2"
    (by decide) (by decide) (by decide) (by decide) (by decide) (by decide)
    (by decide)

/-- After the resolution loop, the pending conflicts are exactly those
whose path was not supplied. -/
theorem resolve_fold_conflicts :
    ∀ (resolutions : List (String × String)) (cs : List Conflict) (t : FileTree),
      (resolutions.foldl resolve_step (cs, t)).1 =
        cs.filter (fun c => c.path ∉ resolutions.map Prod.fst) := by
  intro resolutions
  induction resolutions with
  | nil => intro cs t; simp
  | cons r rs ih =>
      intro cs t
      rw [List.foldl_cons]
      by_cases h : cs.any (fun c => c.path = r.1) = true
      · rw [show resolve_step (cs, t) r =
            (cs.filter (fun c => ¬ c.path = r.1), fsWrite r.1 r.2 t) from by
          unfold resolve_step; rw [if_pos h]]
        rw [ih]
        rw [List.filter_filter]
        apply List.filter_congr
        intro c hc
        by_cases h1 : c.path = r.1 <;> by_cases h2 : c.path ∈ rs.map Prod.fst <;>
          simp [h1, h2, List.mem_cons]
      · rw [show resolve_step (cs, t) r = (cs, t) from by
          unfold resolve_step; rw [if_neg h]]
        rw [ih]
        apply List.filter_congr
        intro c hc
        have hcr : ¬ c.path = r.1 := by
          intro heq
          exact h (List.any_eq_true.mpr ⟨c, hc, by simp [heq]⟩)
        by_cases h2 : c.path ∈ rs.map Prod.fst <;> simp [hcr, h2, List.mem_cons]

/-- A path not named by any remaining resolution keeps its working-tree
content through the loop. -/
theorem resolve_fold_lookup_preserved (p : String) :
    ∀ (rs : List (String × String)) (cs : List Conflict) (t : FileTree),
      p ∉ rs.map Prod.fst →
      fsLookup p (rs.foldl resolve_step (cs, t)).2 = fsLookup p t := by
  intro rs
  induction rs with
  | nil => intro cs t _; rfl
  | cons r rest ih =>
      intro cs t hp
      rw [List.map_cons, List.mem_cons, not_or] at hp
      rw [List.foldl_cons]
      by_cases h : cs.any (fun c => c.path = r.1) = true
      · rw [show resolve_step (cs, t) r =
            (cs.filter (fun c => ¬ c.path = r.1), fsWrite r.1 r.2 t) from by
          unfold resolve_step; rw [if_pos h]]
        rw [ih _ _ hp.2]
        exact fsWrite_fsLookup_ne p r.1 r.2 t hp.1
      · rw [show resolve_step (cs, t) r = (cs, t) from by
          unfold resolve_step; rw [if_neg h]]
        exact ih _ _ hp.2

/-- Each supplied `(path, content)` whose path is pending ends up
written in the working tree. -/
theorem resolve_fold_writes (p c : String) :
    ∀ (rs : List (String × String)) (cs : List Conflict) (t : FileTree),
      (rs.map Prod.fst).Nodup → (p, c) ∈ rs →
      cs.any (fun x => x.path = p) = true →
      fsLookup p (rs.foldl resolve_step (cs, t)).2 = some c := by
  intro rs
  induction rs with
  | nil => intro cs t _ hmem _; exact absurd hmem (List.not_mem_nil _)
  | cons r rest ih =>
      intro cs t hnd hmem hany
      rw [List.map_cons] at hnd
      rw [List.foldl_cons]
      rcases List.mem_cons.mp hmem with heq | hrest
      · obtain rfl := heq.symm
        rw [show resolve_step (cs, t) (p, c) =
            (cs.filter (fun x => ¬ x.path = p), fsWrite p c t) from by
          unfold resolve_step; rw [if_pos hany]]
        rw [resolve_fold_lookup_preserved p rest _ _ (List.nodup_cons.mp hnd).1]
        exact fsWrite_fsLookup_self p c t
      · have hpkeys : p ∈ rest.map Prod.fst := List.mem_map.mpr ⟨(p, c), hrest, rfl⟩
        have hpr : p ≠ r.1 := by
          intro he
          exact (List.nodup_cons.mp hnd).1 (he ▸ hpkeys)
        by_cases h : cs.any (fun x => x.path = r.1) = true
        · rw [show resolve_step (cs, t) r =
              (cs.filter (fun x => ¬ x.path = r.1), fsWrite r.1 r.2 t) from by
            unfold resolve_step; rw [if_pos h]]
          apply ih _ _ (List.nodup_cons.mp hnd).2 hrest
          rw [List.any_eq_true] at hany ⊢
          obtain ⟨x, hx, hxp⟩ := hany
          simp only [decide_eq_true_eq] at hxp
          refine ⟨x, List.mem_filter.mpr ⟨hx, ?_⟩, by simp [hxp]⟩
          simp [hxp, hpr]
        · rw [show resolve_step (cs, t) r = (cs, t) from by
            unfold resolve_step; rw [if_neg h]]
          exact ih _ _ (List.nodup_cons.mp hnd).2 hrest hany

/-- Claim C9: with a pending conflict set `cs` on disk and a resolution
map (duplicate-free keys, as a Python dict), `resolve_conflicts` writes
each supplied content whose path is pending into the target working
tree and removes that path from the pending set; afterwards the
persisted conflict record holds exactly the conflicts whose paths were
not supplied, exists if and only if at least one such conflict remains,
and is deleted entirely once the set becomes empty. -/
theorem resolve_conflicts_spec
    (st : MergeState) (resolutions : List (String × String)) (cs : List Conflict)
    (hcf : st.conflictsFile = some cs)
    (hnd : (resolutions.map Prod.fst).Nodup) :
    ((resolve_conflicts st resolutions).conflictsFile =
      if (cs.filter (fun c => c.path ∉ resolutions.map Prod.fst)).isEmpty then none
      else some (cs.filter (fun c => c.path ∉ resolutions.map Prod.fst))) ∧
    ((resolve_conflicts st resolutions).conflictsFile.isSome = true ↔
      cs.filter (fun c => c.path ∉ resolutions.map Prod.fst) ≠ []) ∧
    (∀ p c, (p, c) ∈ resolutions → cs.any (fun x => x.path = p) = true →
      fsLookup p (resolve_conflicts st resolutions).workingTree = some c) := by
  have hfile : (resolve_conflicts st resolutions).conflictsFile =
      if (cs.filter (fun c => c.path ∉ resolutions.map Prod.fst)).isEmpty then none
      else some (cs.filter (fun c => c.path ∉ resolutions.map Prod.fst)) := by
    simp only [resolve_conflicts, hcf]
    rw [resolve_fold_conflicts]
  refine ⟨hfile, ?_, ?_⟩
  · rw [hfile]
    by_cases hE : (cs.filter (fun c => c.path ∉ resolutions.map Prod.fst)).isEmpty = true
    · rw [if_pos hE]
      simp only [Option.isSome_none, Bool.false_eq_true, false_iff, ne_eq, not_not]
      exact List.isEmpty_iff.mp hE
    · rw [if_neg hE]
      simp only [Option.isSome_some, true_iff]
      intro hnil
      exact hE (by rw [hnil]; rfl)
  · intro p c hmem hany
    simp only [resolve_conflicts, hcf]
    exact resolve_fold_writes p c resolutions cs st.workingTree hnd hmem hany

/-- Concrete state for the C9 witness: one pending conflict on `a.txt`,
resolved with content `merged`. -/
def c9st : MergeState :=
  ⟨"main", [], [("a.txt", "v2")],
   some [⟨"a.txt", "content_conflict", some "v3", some "v2"⟩], ⟨"main", []⟩, []⟩

/-- Witness for claim C9 at a concrete input. -/
theorem resolve_conflicts_spec_witness :
    ((resolve_conflicts c9st [("a.txt", "merged")]).conflictsFile =
      if (([⟨"a.txt", "content_conflict", some "v3", some "v2"⟩] : List Conflict).filter
          (fun c => c.path ∉ [("a.txt", "merged")].map Prod.fst)).isEmpty then none
      else some (([⟨"a.txt", "content_conflict", some "v3", some "v2"⟩] : List Conflict).filter
          (fun c => c.path ∉ [("a.txt", "merged")].map Prod.fst))) ∧
    ((resolve_conflicts c9st [("a.txt", "merged")]).conflictsFile.isSome = true ↔
      ([⟨"a.txt", "content_conflict", some "v3", some "v2"⟩] : List Conflict).filter
          (fun c => c.path ∉ [("a.txt", "merged")].map Prod.fst) ≠ []) ∧
    (∀ p c, (p, c) ∈ [("a.txt", "merged")] →
      ([⟨"a.txt", "content_conflict", some "v3", some "v2"⟩] : List Conflict).any
          (fun x => x.path = p) = true →
      fsLookup p (resolve_conflicts c9st [("a.txt", "merged")]).workingTree = some c) :=
  resolve_conflicts_spec c9st [("a.txt", "merged")]
    [⟨"a.txt", "content_conflict", some "v3", some "v2"⟩]
    (by decide) (by decide)

/-! ## Diff engine (`src/core/diff.py`, class `Diff`) and
`difflib.unified_diff`

`generate_file_diff` decodes both files to line lists
(non-decodable files read as `[]`), runs
`difflib.unified_diff(file1_lines, file2_lines, fromfile, tofile)`, and
counts every output line starting with `+` as added and with `-` as
removed.  `difflib`'s `SequenceMatcher(None, a, b)` is embedded below:
no junk predicate (so the junk extension loop is a no-op, omitted), and
the autojunk popularity filter applies when `len(b) >= 200`.  Recursive
helpers that are not structurally recursive take a fuel argument; every
call site supplies fuel exceeding the recursion depth. -/

def countElem (l : List String) (x : String) : Nat :=
  (l.filter (fun y => y = x)).length

/-- The autojunk "popular" elements of `b` (`__chain_b`): when
`len(b) >= 200`, elements occurring more than `len(b) // 100 + 1`
times are dropped from `b2j`. -/
def popularElems (b : List String) : List String :=
  if 200 ≤ b.length then b.filter (fun x => b.length / 100 + 1 < countElem b x)
  else []

/-- `b2j.get(a[i], [])`: ascending indices of occurrences in `b`,
empty for popular elements. -/
def b2jIndices (b : List String) (popular : List String) (x : String) : List Nat :=
  if popular.contains x then []
  else (List.range b.length).filter (fun j => b.get? j = some x)

def natLookup (l : List (Nat × Nat)) (k : Nat) : Option Nat :=
  match l with
  | [] => none
  | (k', v) :: rest => if k' = k then some v else natLookup rest k

/-- One row of the `find_longest_match` dynamic program: fold over the
`b`-indices of `a[i]` (ascending; `j < blo` skipped, `j >= bhi` cut),
building the new `j2len` and updating the strictly-better best.
(`j2len.get(j-1, 0)` at `j = 0` reads key `-1`, never present.) -/
def flmRow (blo bhi i : Nat) (j2len : List (Nat × Nat)) (js : List Nat)
    (best : Nat × Nat × Nat) : List (Nat × Nat) × (Nat × Nat × Nat) :=
  js.foldl
    (fun acc j =>
      if j < blo ∨ bhi ≤ j then acc
      else
        ((j, (if j = 0 then 0 else (natLookup j2len (j - 1)).getD 0) + 1) :: acc.1,
         if acc.2.2.2 < (if j = 0 then 0 else (natLookup j2len (j - 1)).getD 0) + 1 then
           -- besti = i - k + 1, bestj = j - k + 1 (k ≤ i + 1 and k ≤ j + 1)
           (i + 1 - ((if j = 0 then 0 else (natLookup j2len (j - 1)).getD 0) + 1),
            j + 1 - ((if j = 0 then 0 else (natLookup j2len (j - 1)).getD 0) + 1),
            (if j = 0 then 0 else (natLookup j2len (j - 1)).getD 0) + 1)
         else acc.2))
    ([], best)

/-- Front extension of the best block over equal non-junk elements. -/
def flmExtendFront (a b : List String) (alo blo : Nat) :
    Nat → Nat × Nat × Nat → Nat × Nat × Nat
  | 0, best => best
  | fuel + 1, (besti, bestj, bestsize) =>
      if alo < besti ∧ blo < bestj ∧ (a.get? (besti - 1)).isSome ∧
          a.get? (besti - 1) = b.get? (bestj - 1) then
        flmExtendFront a b alo blo fuel (besti - 1, bestj - 1, bestsize + 1)
      else (besti, bestj, bestsize)

/-- Back extension of the best block over equal non-junk elements. -/
def flmExtendBack (a b : List String) (ahi bhi : Nat) :
    Nat → Nat × Nat × Nat → Nat × Nat × Nat
  | 0, best => best
  | fuel + 1, (besti, bestj, bestsize) =>
      if besti + bestsize < ahi ∧ bestj + bestsize < bhi ∧
          (a.get? (besti + bestsize)).isSome ∧
          a.get? (besti + bestsize) = b.get? (bestj + bestsize) then
        flmExtendBack a b ahi bhi fuel (besti, bestj, bestsize + 1)
      else (besti, bestj, bestsize)

/-- `SequenceMatcher.find_longest_match(alo, ahi, blo, bhi)`. -/
def find_longest_match (a b : List String) (popular : List String)
    (alo ahi blo bhi : Nat) : Nat × Nat × Nat :=
  let dp := (List.range' alo (ahi - alo)).foldl
    (fun acc i => flmRow blo bhi i acc.1 (b2jIndices b popular (a.getD i "")) acc.2)
    ([], (alo, blo, 0))
  flmExtendBack a b ahi bhi (b.length + 1)
    (flmExtendFront a b alo blo (a.length + 1) dp.2)

/-- The recursive block collection of `get_matching_blocks`, emitted in
sorted order (CPython collects via a queue and sorts). -/
def matchingBlocksF (a b : List String) (popular : List String) :
    Nat → Nat → Nat → Nat → Nat → List (Nat × Nat × Nat)
  | 0, _, _, _, _ => []
  | fuel + 1, alo, ahi, blo, bhi =>
      match find_longest_match a b popular alo ahi blo bhi with
      | (i, j, k) =>
          if k = 0 then []
          else matchingBlocksF a b popular fuel alo i blo j ++
            (i, j, k) :: matchingBlocksF a b popular fuel (i + k) ahi (j + k) bhi

/-- Collapse adjacent blocks (`i1+k1 == i2 and j1+k1 == j2`). -/
def mergeAdjacentF : Nat → List (Nat × Nat × Nat) → List (Nat × Nat × Nat)
  | 0, l => l
  | fuel + 1, (i1, j1, k1) :: (i2, j2, k2) :: rest =>
      if i1 + k1 = i2 ∧ j1 + k1 = j2 then
        mergeAdjacentF fuel ((i1, j1, k1 + k2) :: rest)
      else (i1, j1, k1) :: mergeAdjacentF fuel ((i2, j2, k2) :: rest)
  | _, l => l

/-- `SequenceMatcher.get_matching_blocks`, sentinel `(la, lb, 0)`
included. -/
def get_matching_blocks (a b : List String) : List (Nat × Nat × Nat) :=
  mergeAdjacentF
    ((matchingBlocksF a b (popularElems b)
        (a.length + 1) 0 a.length 0 b.length).length + 1)
    (matchingBlocksF a b (popularElems b) (a.length + 1) 0 a.length 0 b.length)
  ++ [(a.length, b.length, 0)]

/-- The opcode walk of `SequenceMatcher.get_opcodes`. -/
def opcodesLoop : Nat → Nat → List (Nat × Nat × Nat) →
    List (String × Nat × Nat × Nat × Nat)
  | _, _, [] => []
  | i, j, (ai, bj, size) :: rest =>
      (if i < ai ∧ j < bj then [("replace", i, ai, j, bj)]
       else if i < ai then [("delete", i, ai, j, bj)]
       else if j < bj then [("insert", i, ai, j, bj)]
       else []) ++
      (if size ≠ 0 then [("equal", ai, ai + size, bj, bj + size)] else []) ++
      opcodesLoop (ai + size) (bj + size) rest

def get_opcodes (a b : List String) : List (String × Nat × Nat × Nat × Nat) :=
  opcodesLoop 0 0 (get_matching_blocks a b)

/-- The grouping loop of `get_grouped_opcodes`: split the opcode list
at every `equal` run longer than `2n`, trimming context to `n`; the
final group is dropped if it is a single `equal`. -/
def groupLoop (nn n : Nat) :
    List (String × Nat × Nat × Nat × Nat) →
    List (String × Nat × Nat × Nat × Nat) →
    List (List (String × Nat × Nat × Nat × Nat)) →
    List (List (String × Nat × Nat × Nat × Nat))
  | [], group, acc =>
      if ¬ group.isEmpty = true ∧
          ¬ (group.length = 1 ∧ (group.headD ("", 0, 0, 0, 0)).1 = "equal") then
        acc ++ [group]
      else acc
  | (tag, i1, i2, j1, j2) :: rest, group, acc =>
      if tag = "equal" ∧ nn < i2 - i1 then
        groupLoop nn n rest
          [(tag, max i1 (i2 - n), i2, max j1 (j2 - n), j2)]
          (acc ++ [group ++ [(tag, i1, min i2 (i1 + n), j1, min j2 (j1 + n))]])
      else groupLoop nn n rest (group ++ [(tag, i1, i2, j1, j2)]) acc

/-- `SequenceMatcher.get_grouped_opcodes(n)`. -/
def get_grouped_opcodes (a b : List String) (n : Nat) :
    List (List (String × Nat × Nat × Nat × Nat)) :=
  let codes0 := get_opcodes a b
  let codes1 := if codes0.isEmpty then [("equal", 0, 1, 0, 1)] else codes0
  let codes2 :=
    match codes1 with
    | (tag, i1, i2, j1, j2) :: rest =>
        if tag = "equal" then (tag, max i1 (i2 - n), i2, max j1 (j2 - n), j2) :: rest
        else codes1
    | [] => codes1
  let codes3 :=
    match codes2.getLast? with
    | some (tag, i1, i2, j1, j2) =>
        if tag = "equal" then
          codes2.dropLast ++ [(tag, i1, min i2 (i1 + n), j1, min j2 (j1 + n))]
        else codes2
    | none => codes2
  groupLoop (n + n) n codes3 [] []

/-- `difflib._format_range_unified`. -/
def formatRangeUnified (start stop : Nat) : String :=
  if stop - start = 1 then Nat.repr (start + 1)
  else
    Nat.repr (if stop - start = 0 then start else start + 1) ++ "," ++
      Nat.repr (stop - start)

/-- `a[i1:i2]`. -/
def sliceList (l : List String) (i1 i2 : Nat) : List String :=
  (l.drop i1).take (i2 - i1)

/-- The per-group output lines of `difflib.unified_diff`
(`lineterm = "\n"`, no file dates). -/
def unifiedGroupLines (a b : List String)
    (group : List (String × Nat × Nat × Nat × Nat)) : List String :=
  ("@@ -" ++
      formatRangeUnified (group.headD ("", 0, 0, 0, 0)).2.1
        (group.getLastD ("", 0, 0, 0, 0)).2.2.1 ++
    " +" ++
      formatRangeUnified (group.headD ("", 0, 0, 0, 0)).2.2.2.1
        (group.getLastD ("", 0, 0, 0, 0)).2.2.2.2 ++
    " @@" ++ "\n") ::
  group.flatMap (fun op =>
    if op.1 = "equal" then
      (sliceList a op.2.1 op.2.2.1).map (fun line => " " ++ line)
    else
      (if op.1 = "replace" ∨ op.1 = "delete" then
        (sliceList a op.2.1 op.2.2.1).map (fun line => "-" ++ line)
       else []) ++
      (if op.1 = "replace" ∨ op.1 = "insert" then
        (sliceList b op.2.2.2.1 op.2.2.2.2).map (fun line => "+" ++ line)
       else []))

/-- `difflib.unified_diff(a, b, fromfile, tofile)` with the default
`n = 3` and `lineterm = "\n"`: the two header lines are emitted before
the first group; no group, no output. -/
def unified_diff (a b : List String) (fromfile tofile : String) : List String :=
  if (get_grouped_opcodes a b 3).isEmpty then []
  else
    ("--- " ++ fromfile ++ "\n") :: ("+++ " ++ tofile ++ "\n") ::
      (get_grouped_opcodes a b 3).flatMap (unifiedGroupLines a b)

/-- `str.startswith(pre)`. -/
def strStarts (s pre : String) : Bool := pre.data.isPrefixOf s.data

structure DiffChanges where
  added_lines : Nat
  removed_lines : Nat
  total_lines_changed : Nat
deriving Repr, DecidableEq

structure FileDiff where
  diff_lines : List String
  changes : DiffChanges
  is_different : Bool
deriving Repr, DecidableEq

/-- `Diff.generate_file_diff(file1_path, file2_path)` (lines 36-67) on
the decoded line lists and basenames of the two files: the added count
is the number of output lines starting with `+` (which includes the
`+++` header), the removed count those starting with `-` (including the
`---` header). -/
def generate_file_diff (file1_lines file2_lines : List String)
    (name1 name2 : String) : FileDiff :=
  { diff_lines := unified_diff file1_lines file2_lines name1 name2,
    changes :=
      ⟨((unified_diff file1_lines file2_lines name1 name2).filter
          (fun line => strStarts line "+")).length,
       ((unified_diff file1_lines file2_lines name1 name2).filter
          (fun line => strStarts line "-")).length,
       (unified_diff file1_lines file2_lines name1 name2).length⟩,
    is_different := decide (0 < (unified_diff file1_lines file2_lines name1 name2).length) }

/-- Sanity anchors: the embedded `unified_diff` reproduces CPython's
`difflib.unified_diff` output on representative inputs. -/
example :
    unified_diff ["a\n", "b\n", "c\n"] ["a\n", "x\n", "c\n"] "f1" "f2" =
      ["--- f1\n", "+++ f2\n", "@@ -1,3 +1,3 @@\n", " a\n", "-b\n", "+x\n", " c\n"] := by
  decide

example : unified_diff ["a\n"] ["a\n"] "f1" "f2" = [] := by decide

theorem string_data_append (s t : String) : (s ++ t).data = s.data ++ t.data := rfl

theorem strStarts_plus_header (s : String) :
    strStarts ("+++ " ++ s ++ "\n") "+" = true := by
  have h : ("+++ " ++ s ++ "\n").data = '+' :: '+' :: '+' :: ' ' :: s.data ++ "\n".data := by
    rw [string_data_append, string_data_append]
    rfl
  simp [strStarts, h, List.isPrefixOf]

theorem strStarts_plus_header_not_dash (s : String) :
    strStarts ("+++ " ++ s ++ "\n") "-" = false := by
  have h : ("+++ " ++ s ++ "\n").data = '+' :: ('+' :: '+' :: ' ' :: s.data ++ "\n".data) := by
    rw [string_data_append, string_data_append]
    rfl
  simp [strStarts, h, List.isPrefixOf]

theorem strStarts_dash_header (s : String) :
    strStarts ("--- " ++ s ++ "\n") "-" = true := by
  have h : ("--- " ++ s ++ "\n").data = '-' :: '-' :: '-' :: ' ' :: s.data ++ "\n".data := by
    rw [string_data_append, string_data_append]
    rfl
  simp [strStarts, h, List.isPrefixOf]

theorem strStarts_dash_header_not_plus (s : String) :
    strStarts ("--- " ++ s ++ "\n") "+" = false := by
  have h : ("--- " ++ s ++ "\n").data = '-' :: ('-' :: '-' :: ' ' :: s.data ++ "\n".data) := by
    rw [string_data_append, string_data_append]
    rfl
  simp [strStarts, h, List.isPrefixOf]

/-- Claim C10: whenever the diff of two decoded files produces any
output, the first two output lines are the unified-diff headers
`--- name1` and `+++ name2`, and since the header lines are counted by
the `startswith` tallies, both the added-line and removed-line counts
are at least 1 — even when the content change consists only of
additions or only of removals. -/
theorem generate_file_diff_counts_include_headers
    (l1 l2 : List String) (n1 n2 : String)
    (h : (generate_file_diff l1 l2 n1 n2).diff_lines ≠ []) :
    (generate_file_diff l1 l2 n1 n2).diff_lines.take 2 =
      ["--- " ++ n1 ++ "\n", "+++ " ++ n2 ++ "\n"] ∧
    1 ≤ (generate_file_diff l1 l2 n1 n2).changes.added_lines ∧
    1 ≤ (generate_file_diff l1 l2 n1 n2).changes.removed_lines := by
  by_cases hg : (get_grouped_opcodes l1 l2 3).isEmpty = true
  · exfalso
    apply h
    simp [generate_file_diff, unified_diff, hg]
  · have hd : unified_diff l1 l2 n1 n2 =
        ("--- " ++ n1 ++ "\n") :: ("+++ " ++ n2 ++ "\n") ::
          (get_grouped_opcodes l1 l2 3).flatMap (unifiedGroupLines l1 l2) := by
      unfold unified_diff
      rw [if_neg hg]
    refine ⟨?_, ?_, ?_⟩
    · simp [generate_file_diff, hd]
    · simp only [generate_file_diff]
      rw [hd, List.filter_cons, List.filter_cons]
      simp only [strStarts_dash_header_not_plus, strStarts_plus_header, if_false, if_true,
        Bool.false_eq_true, List.length_cons]
      omega
    · simp only [generate_file_diff]
      rw [hd, List.filter_cons, List.filter_cons]
      simp only [strStarts_dash_header, strStarts_plus_header_not_dash, if_false, if_true,
        Bool.false_eq_true, List.length_cons]
      omega

/-- Witness for claim C10 at a concrete input whose content change is
a pure addition (one line appended), yet the removed count is 1. -/
theorem generate_file_diff_counts_include_headers_witness :
    (generate_file_diff ["a\n"] ["a\n", "b\n"] "f1" "f2").diff_lines.take 2 =
      ["--- " ++ "f1" ++ "\n", "+++ " ++ "f2" ++ "\n"] ∧
    1 ≤ (generate_file_diff ["a\n"] ["a\n", "b\n"] "f1" "f2").changes.added_lines ∧
    1 ≤ (generate_file_diff ["a\n"] ["a\n", "b\n"] "f1" "f2").changes.removed_lines :=
  generate_file_diff_counts_include_headers ["a\n"] ["a\n", "b\n"] "f1" "f2" (by decide)
